import Mathlib

/-!
# Verification of the halo-issues core (`haloissues/haloissues.py`)

Shallow embedding of the issue-aggregation pipeline of the `HaloIssues`
class: timestamp labeling (`time_label_issue`), deduplication
(`deduplicate_issues`), the client-side time-window filter
(`targeted_date` and the two list comprehensions in
`get_issues_touched_since`), the aggregation driver
(`get_issues_touched_since`, `describe_all_issues`), and the finding
resolver (`describe_finding`, `parse_finding_url`, `get_finding`).

Modelling choices, all taken from the source:

* An issue record is a Python `dict`; we model it as an insertion-ordered
  association list `Rec := List (String × Option String)` whose values are
  either JSON `null` (`Option.none`) or strings (the claims only touch
  string-valued and null fields: `id`, the three timestamps, `tstamp`).
* Python exceptions are modelled with `Except PyError`: `issue[k]` on a
  missing key raises `KeyError`, `sorted([])[-1]` raises `IndexError`,
  and unpacking `None` into a tuple (or ordering `None` against `str`)
  raises `TypeError`.
* The external `cloudpassage` REST client is a collaborator, not code of
  this repository: `Issue.list_all` is a parameter `list_all : Query → List Rec`
  keyed by the exact keyword arguments the source passes, `Issue.describe`
  is a parameter `get_issue : Val → Rec`, and an HTTP helper `get(path)`
  is modelled by recording the path fetched (`FindingResult.fetched`).
* `ThreadPool.map` dispatches every element and blocks until all complete,
  preserving input order, so it is modelled as `List.map`; the Python
  `set` of issue ids is modelled as `List.dedup` of the id list (the
  claims proved about it are insensitive to the set's iteration order).
* Python's lexicographic `str` ordering is spelled out on character lists
  (`pyLt`) and proved equal to `List.Lex (· < ·)`; `sorted` is a stable
  comparison sort, modelled with `List.insertionSort` over the derived
  `<=` (only sortedness and permutation matter for `sorted(ts)[-1]`).
-/

/-- A JSON-ish field value: `null` or a string. -/
abbrev Val := Option String

/-- A Python dict with string keys, in insertion order. -/
abbrev Rec := List (String × Val)

/-- The Python exceptions the embedded code can raise. -/
inductive PyError where
  | keyError (key : String)
  | indexError
  | typeError
  deriving DecidableEq, Repr

instance {ε α : Type} [DecidableEq ε] [DecidableEq α] : DecidableEq (Except ε α) := fun
  | .ok a, .ok b => if h : a = b then .isTrue (by rw [h]) else .isFalse (by simp [h])
  | .ok _, .error _ => .isFalse (by simp)
  | .error _, .ok _ => .isFalse (by simp)
  | .error e, .error f => if h : e = f then .isTrue (by rw [h]) else .isFalse (by simp [h])

/-- `d[k]` on a Python dict: the value at the first (unique) binding of `k`,
`KeyError` when `k` is not a key. -/
def dget (d : Rec) (k : String) : Except PyError Val :=
  match d.find? (fun p => p.1 == k) with
  | some p => .ok p.2
  | none => .error (.keyError k)

/-- `d[k] = v` on a Python dict: overwrite in place when the key exists
(keeping its position), otherwise append the new binding. -/
def dset (d : Rec) (k : String) (v : Val) : Rec :=
  if (d.find? (fun p => p.1 == k)).isSome then
    d.map (fun p => if p.1 == k then (k, v) else p)
  else
    d ++ [(k, v)]

/-- A list comprehension whose body may raise: evaluate left to right,
propagating the first exception. -/
def mapExcept {α β : Type} (f : α → Except PyError β) : List α → Except PyError (List β)
  | [] => .ok []
  | x :: xs => do
    let y ← f x
    let ys ← mapExcept f xs
    .ok (y :: ys)

/-- A filtering list comprehension whose condition may raise. -/
def filterExcept {α : Type} (p : α → Except PyError Bool) : List α → Except PyError (List α)
  | [] => .ok []
  | x :: xs => do
    let b ← p x
    let ys ← filterExcept p xs
    .ok (if b then x :: ys else ys)

/-- Python's `<` on `str`: lexicographic comparison by code point, a strict
prefix is smaller. (`String.ltb` itself does not reduce in the kernel, so the
comparison is spelled out on the character lists; `pyLt_iff_lex` below proves
it is exactly the lexicographic order `List.Lex (· < ·)`.) -/
def pyLt : List Char → List Char → Bool
  | [], [] => false
  | [], _ :: _ => true
  | _ :: _, [] => false
  | a :: as, b :: bs => if a < b then true else if b < a then false else pyLt as bs

/-- Python's `<=` on `str`, as used by `sorted` (ascending order): `s <= t`
iff not `t < s`. -/
def strLe (s t : String) : Bool := !(pyLt t.toList s.toList)

/-- `strLe` as a binary relation, for `List.insertionSort`. -/
abbrev StrLeP : String → String → Prop := fun s t => strLe s t = true

/-- Python's `sorted` on a list of strings: a comparison sort, ascending.
Only sortedness and the permutation property matter for `sorted(ts)[-1]`,
so a stable insertion sort models it. -/
def pysorted (l : List String) : List String := List.insertionSort StrLeP l

/-- The three candidate timestamp fields, in the source's fixed order
(`target_fields` in `time_label_issue`). -/
def target_fields : List String := ["created_at", "resolved_at", "last_seen_at"]

/-- `[issue[x] for x in fields if issue[x] is not None]`: look each field up
(raising `KeyError` on a missing key) and keep the non-null values. -/
def collect_tstamps (issue : Rec) : List String → Except PyError (List String)
  | [] => .ok []
  | f :: fs => do
    let v ← dget issue f
    let rest ← collect_tstamps issue fs
    match v with
    | none => .ok rest
    | some s => .ok (s :: rest)

/-- `time_label_issue(issue)`: a copy of the dict with a `tstamp` key set to
`sorted(tstamps)[-1]`, the newest of the non-null timestamp fields;
`sorted([])[-1]` raises `IndexError` when all three are null. -/
def time_label_issue (issue : Rec) : Except PyError Rec := do
  let tstamps ← collect_tstamps issue target_fields
  match (pysorted tstamps).getLast? with
  | none => .error .indexError
  | some newest => .ok (dset issue "tstamp" (some newest))

/-- `targeted_date(sample, target)`: `True` iff `sample > target`
(lexicographic string comparison). -/
def targeted_date (sample target : String) : Bool :=
  if pyLt target.toList sample.toList then true else false

/-- `x["tstamp"]` used as a string comparand: `KeyError` when the key is
missing, `TypeError` when the value is `None` (Python 3 cannot order `None`
against `str`). -/
def tstampStr (x : Rec) : Except PyError String := do
  match ← dget x "tstamp" with
  | some t => .ok t
  | none => .error .typeError

/-- `[x for x in labeled if self.targeted_date(x["tstamp"], timestamp)]`. -/
def window_kept (labeled : List Rec) (timestamp : String) : Except PyError (List Rec) :=
  filterExcept (fun x => do
    let t ← tstampStr x
    .ok (targeted_date t timestamp)) labeled

/-- `[x for x in labeled if not self.targeted_date(x["tstamp"], timestamp)]`. -/
def window_discarded (labeled : List Rec) (timestamp : String) : Except PyError (List Rec) :=
  filterExcept (fun x => do
    let t ← tstampStr x
    .ok (!targeted_date t timestamp)) labeled

/-- The loop body of `deduplicate_issues`, with the running
`all_issue_ids` set modelled as the list of ids already seen. -/
def dedupe_aux (seen : List Val) : List Rec → Except PyError (List Rec)
  | [] => .ok []
  | x :: xs => do
    let i ← dget x "id"
    if i ∈ seen then
      dedupe_aux seen xs
    else do
      let rest ← dedupe_aux (i :: seen) xs
      .ok (x :: rest)

/-- `deduplicate_issues(issues)`: keep each record whose `id` has not been
seen yet, in order. -/
def deduplicate_issues (issues : List Rec) : Except PyError (List Rec) :=
  dedupe_aux [] issues

/-- The `id` value of a record, as a total function (used to instantiate
the id view `idv` at concrete records whose lookup succeeds). -/
def idOf (x : Rec) : Val :=
  match dget x "id" with
  | .ok v => v
  | .error _ => none

/-- The keyword arguments `get_issues_touched_since` passes to
`Issue.list_all` on the external client. -/
structure Query where
  status : String
  critical : Option Bool
  state : String
  last_seen_at_gte : Option String
  resolved_at_gte : Option String
  deriving DecidableEq, Repr

/-- The `state` filter both queries share. -/
def state_filter : String := "active,inactive,missing,retired"

/-- `get_issues_touched_since(timestamp, critical_only)`: run the two
server-side queries, concatenate `resolved + updated`, label every record,
keep the client-side time window, and deduplicate. The external
`Issue.list_all` is the parameter `list_all`; the discarded list is computed
in the source only to be logged, and is reproduced here. -/
def get_issues_touched_since (list_all : Query → List Rec)
    (timestamp : String) (critical_only : Bool) : Except PyError (List Rec) := do
  let updated :=
    if critical_only then
      list_all ⟨"active", some true, state_filter, some timestamp, none⟩
    else
      list_all ⟨"active", none, state_filter, some timestamp, none⟩
  let resolved :=
    if critical_only then
      list_all ⟨"resolved", some true, state_filter, none, some timestamp⟩
    else
      list_all ⟨"resolved", none, state_filter, none, some timestamp⟩
  let all_issues := resolved ++ updated
  let labeled ← mapExcept time_label_issue all_issues
  let issues_filtered ← window_kept labeled timestamp
  let _discarded_issues ← window_discarded labeled timestamp
  deduplicate_issues issues_filtered

/-- `describe_all_issues(timestamp, critical_only)`: collect the set of
touched issue ids, fetch every full body through the worker pool, and label
each result. The Python `set` comprehension is modelled as `List.dedup` of
the id list (the properties proved are insensitive to set iteration order);
`ThreadPool.map` dispatches all ids and joins, so it is `List.map` over the
external `Issue.describe`, the parameter `get_issue`. -/
def describe_all_issues (list_all : Query → List Rec) (get_issue : Val → Rec)
    (timestamp : String) (critical_only : Bool) : Except PyError (List Rec) := do
  let touched ← get_issues_touched_since list_all timestamp critical_only
  let ids ← mapExcept (fun x => dget x "id") touched
  let all_issue_ids := ids.dedup
  let results := all_issue_ids.map get_issue
  mapExcept time_label_issue results

/-- `matchesAt pat l`: does `pat` occur at the head of `l`? -/
def matchesAt : List Char → List Char → Bool
  | [], _ => true
  | _ :: _, [] => false
  | p :: ps, c :: cs => p == c && matchesAt ps cs

/-- `hasSub pat l`: does `pat` occur anywhere in `l`? -/
def hasSub (pat : List Char) : List Char → Bool
  | [] => matchesAt pat []
  | l@(_ :: tl) => matchesAt pat l || hasSub pat tl

/-- Python's `pat in s` on strings: substring containment. -/
def strContains (s pat : String) : Bool := hasSub pat.toList s.toList

/-- Strip an exact literal from the head of the input, or fail. -/
def stripLit : List Char → List Char → Option (List Char)
  | [], l => some l
  | _ :: _, [] => none
  | p :: ps, c :: cs => if p == c then stripLit ps cs else none

/-- Consume a non-empty maximal run of characters satisfying `f`
(a greedy `+`-quantified character class). -/
def takeClass1 (f : Char → Bool) (l : List Char) : Option (List Char × List Char) :=
  let pre := l.takeWhile f
  if pre.isEmpty then none else some (pre, l.dropWhile f)

/-- `\w` of the source regex (ASCII word character; the URLs this tool
handles are ASCII). -/
def isWordChar (c : Char) : Bool := c.isAlphanum || c == '_'

/-- `parse_finding_url(url)`: match the anchored regex
`^https://\w+\.cloudpassage\.com/v\d/scans/[A-Za-z0-9]+/findings/[A-Za-z0-9]+$`
and extract `(scan_id, finding_id)`, or `None` when it does not match.
Each `+`-class in the regex is followed by a character it cannot match
(`.`, `/`, or end of string), so the greedy maximal-munch parse below is the
only possible match and the parser decides the regex exactly; on a match,
the `rxtractor` groups are these same two runs. -/
def parse_finding_url (url : String) : Option (String × String) := do
  let l0 := url.toList
  let l1 ← stripLit "https://".toList l0
  let (_, l2) ← takeClass1 isWordChar l1
  let l3 ← stripLit ".cloudpassage.com/v".toList l2
  let l4 ← match l3 with
    | c :: rest => if c.isDigit then some rest else none
    | [] => none
  let l5 ← stripLit "/scans/".toList l4
  let (scanId, l6) ← takeClass1 Char.isAlphanum l5
  let l7 ← stripLit "/findings/".toList l6
  let (findingId, l8) ← takeClass1 Char.isAlphanum l7
  if l8.isEmpty then some (String.mk scanId, String.mk findingId) else none

/-- Python's `s.split(sep)` for a one-character separator: split on every
occurrence, keeping empty segments; the result is never empty. -/
def splitChar (sep : Char) : List Char → List (List Char)
  | [] => [[]]
  | c :: cs =>
    let r := splitChar sep cs
    if c == sep then [] :: r
    else
      match r with
      | [] => [[c]]
      | h :: t => (c :: h) :: t

/-- The observable outcome of `describe_finding`: either an HTTP `GET` of a
path on the external client (whose response is opaque), or Python `None`. -/
inductive FindingResult where
  | fetched (path : String)
  | pyNone
  deriving DecidableEq, Repr

/-- `get_finding(scan_id, finding_id)`: `GET /v1/scans/{scan_id}/findings/{finding_id}`. -/
def get_finding (scan_id finding_id : String) : FindingResult :=
  .fetched ("/v1/scans/" ++ scan_id ++ "/findings/" ++ finding_id)

/-- `describe_finding(finding_url)`: dispatch on the URL shape. On the
`/scans/` branch the source unpacks `parse_finding_url`'s return value into
a tuple without a `None` check, so a parse failure raises
`TypeError: cannot unpack non-iterable NoneType object`. On the `/events/`
branch the final path segment is the event id and `/v1/events/{event_id}` is
fetched (the HTTP helper construction is the external client capability).
Otherwise an error is logged and `None` returned. -/
def describe_finding (finding_url : String) : Except PyError FindingResult :=
  if strContains finding_url "/scans/" then
    match parse_finding_url finding_url with
    | some (scan_id, finding_id) => .ok (get_finding scan_id finding_id)
    | none => .error .typeError
  else if strContains finding_url "/events/" then
    let event_id := String.mk ((splitChar '/' finding_url.toList).getLastD [])
    .ok (.fetched ("/v1/events/" ++ event_id))
  else
    .ok .pyNone

/-- Pure mirror of `dedupe_aux` once every record's `id` lookup is known to
succeed with value `idv x`: the `seen` set threaded through the loop. -/
def keepFirstSeen (idv : Rec → Val) (seen : List Val) : List Rec → List Rec
  | [] => []
  | x :: xs =>
    if idv x ∈ seen then keepFirstSeen idv seen xs
    else x :: keepFirstSeen idv (idv x :: seen) xs

/-- Modelled from the spec: "stable sub-sequence preserving first occurrence
order, one record per distinct `id`" — keep the head, drop every later
record with the same id, recurse. This is the specification side that
`deduplicate_issues` is proved to refine. -/
def keepFirstOccurrences (idv : Rec → Val) : List Rec → List Rec
  | [] => []
  | x :: xs => x :: keepFirstOccurrences idv (xs.filter (fun y => idv y != idv x))
  termination_by l => l.length
  decreasing_by
    simp only [List.length_cons]
    exact Nat.lt_succ_of_le (List.length_filter_le _ _)

/-- Mock "updated" query result: three active records, one (`A`) sharing its
id with a resolved record. -/
def mock_updated : List Rec :=
  [[("id", some "A"), ("created_at", some "2019-01-01"), ("resolved_at", none),
    ("last_seen_at", some "2020-02-15")],
   [("id", some "C"), ("created_at", some "2020-01-05"), ("resolved_at", none),
    ("last_seen_at", some "2020-03-01")],
   [("id", some "D"), ("created_at", some "2020-01-06"), ("resolved_at", none),
    ("last_seen_at", some "2020-04-01")]]

/-- Mock "resolved" query result: two records, one (`B`) stale — its newest
timestamp "2019-12-01" is not after the cutoff "2020-01-01". -/
def mock_resolved : List Rec :=
  [[("id", some "A"), ("created_at", some "2019-01-01"),
    ("resolved_at", some "2020-02-01"), ("last_seen_at", none)],
   [("id", some "B"), ("created_at", some "2019-11-01"),
    ("resolved_at", some "2019-12-01"), ("last_seen_at", none)]]

/-- Mock server: dispatch on the `status` filter of the query. -/
def mock_list_all (q : Query) : List Rec :=
  if q.status = "active" then mock_updated
  else if q.status = "resolved" then mock_resolved
  else []

/-- Mock `Issue.describe`: the full record body for each known id; for any
other id a minimal record carrying it, so the returned record's `id` always
equals the requested id. -/
def mock_get (v : Val) : Rec :=
  if v = some "A" then
    [("id", some "A"), ("created_at", some "2019-01-01"),
     ("resolved_at", some "2020-02-01"), ("last_seen_at", some "2020-02-15"),
     ("status", some "resolved")]
  else if v = some "C" then
    [("id", some "C"), ("created_at", some "2020-01-05"), ("resolved_at", none),
     ("last_seen_at", some "2020-03-01")]
  else if v = some "D" then
    [("id", some "D"), ("created_at", some "2020-01-06"), ("resolved_at", none),
     ("last_seen_at", some "2020-04-01")]
  else [("id", v), ("created_at", some "2019-01-01"), ("resolved_at", none),
        ("last_seen_at", none)]

-- Concrete evaluations of the embedded dict primitives and labeler.
example : dget [("id", some "A"), ("created_at", none)] "id" = .ok (some "A") := by decide
example : dget [("id", some "A")] "created_at" = .error (.keyError "created_at") := by decide
example :
    time_label_issue
      [("id", some "A"), ("created_at", some "2020-01-01"),
       ("resolved_at", none), ("last_seen_at", some "2020-03-01")] =
    .ok [("id", some "A"), ("created_at", some "2020-01-01"),
         ("resolved_at", none), ("last_seen_at", some "2020-03-01"),
         ("tstamp", some "2020-03-01")] := by decide
example :
    time_label_issue
      [("id", some "A"), ("created_at", none), ("resolved_at", none),
       ("last_seen_at", none)] = .error .indexError := by decide

example :
    parse_finding_url "https://x.cloudpassage.com/v1/scans/AAA111/findings/BBB222" =
      some ("AAA111", "BBB222") := by decide
example :
    describe_finding "https://x.cloudpassage.com/v1/scans/AAA111/findings/BBB222" =
      .ok (.fetched "/v1/scans/AAA111/findings/BBB222") := by decide
example :
    describe_finding "https://x.cloudpassage.com/v1/events/ZZZ999" =
      .ok (.fetched "/v1/events/ZZZ999") := by decide
example : describe_finding "not-a-url" = .ok .pyNone := by decide
example :
    describe_finding "http://x.cloudpassage.com/v1/scans/AAA111/findings/BBB222" =
      .error .typeError := by decide

/-! ## The lexicographic order: `pyLt` is `List.Lex (· < ·)` -/

/-- `pyLt` is exactly the strict lexicographic order on character lists. -/
theorem pyLt_iff_lex : ∀ (a b : List Char), pyLt a b = true ↔ List.Lex (· < ·) a b
  | [], [] => by
    simp only [pyLt, Bool.false_eq_true, false_iff]
    exact List.Lex.not_nil_right _ _
  | [], _ :: _ => by
    simp only [pyLt, true_iff]
    exact List.Lex.nil
  | _ :: _, [] => by
    simp only [pyLt, Bool.false_eq_true, false_iff]
    exact List.Lex.not_nil_right _ _
  | a :: as, b :: bs => by
    by_cases h₁ : a < b
    · simp only [pyLt, if_pos h₁, true_iff]
      exact List.Lex.rel h₁
    · by_cases h₂ : b < a
      · simp only [pyLt, if_neg h₁, if_pos h₂, Bool.false_eq_true, false_iff]
        intro h
        cases h with
        | rel h' => exact h₁ h'
        | cons h' => exact lt_irrefl _ h₂
      · have hab : a = b := le_antisymm (not_lt.mp h₂) (not_lt.mp h₁)
        subst hab
        simp only [pyLt, if_neg h₁, if_neg h₂]
        rw [pyLt_iff_lex as bs]
        constructor
        · exact List.Lex.cons
        · intro h
          cases h with
          | rel h' => exact absurd h' h₁
          | cons h' => exact h'

/-- `pyLt` agrees with Mathlib's `<` on `List Char`. -/
theorem pyLt_iff_lt (a b : List Char) : pyLt a b = true ↔ a < b := pyLt_iff_lex a b

theorem pyLt_eq_false_iff_le (a b : List Char) : pyLt a b = false ↔ b ≤ a := by
  rw [← not_lt, ← pyLt_iff_lt, Bool.not_eq_true]

/-- Python `s <= t` agrees with Mathlib's `≤` on the character lists. -/
theorem strLe_iff (s t : String) : strLe s t = true ↔ s.toList ≤ t.toList := by
  unfold strLe
  rw [Bool.not_eq_true', pyLt_eq_false_iff_le]

theorem strLe_refl (s : String) : StrLeP s s := (strLe_iff s s).mpr le_rfl

instance : IsTotal String StrLeP :=
  ⟨fun s t => by
    simp only [StrLeP, strLe_iff]
    exact le_total _ _⟩

instance : IsTrans String StrLeP :=
  ⟨fun a b c hab hbc => by
    simp only [StrLeP, strLe_iff] at hab hbc ⊢
    exact le_trans hab hbc⟩

/-- The last element of a `strLe`-sorted non-empty list bounds every
element. -/
theorem sorted_getLast_isMax :
    ∀ (l : List String) (hne : l ≠ []), l.Sorted StrLeP →
      ∀ x ∈ l, StrLeP x (l.getLast hne)
  | [], hne, _, _, _ => absurd rfl hne
  | [a], _, _, x, hx => by
    simp only [List.mem_singleton] at hx
    subst hx
    simp only [List.getLast_singleton]
    exact strLe_refl x
  | a :: b :: t, _, hs, x, hx => by
    have hne' : b :: t ≠ [] := List.cons_ne_nil _ _
    rw [List.getLast_cons hne']
    rcases List.mem_cons.mp hx with rfl | hx'
    · exact (List.sorted_cons.mp hs).1 _ (List.getLast_mem hne')
    · exact sorted_getLast_isMax (b :: t) hne' (List.sorted_cons.mp hs).2 x hx'

/-! ## Dict lemmas: `dget` after `dset` -/

theorem overwrite_pred_same (k : String) (v : Val) :
    ((fun p : String × Val => p.1 == k) ∘ fun p => if p.1 == k then (k, v) else p) =
      fun p : String × Val => p.1 == k := by
  funext q
  by_cases h : q.1 = k <;> simp [h]

theorem overwrite_pred_other (k k' : String) (v : Val) :
    ((fun p : String × Val => p.1 == k') ∘ fun p => if p.1 == k then (k, v) else p) =
      fun p : String × Val => p.1 == k' := by
  funext q
  by_cases h : q.1 = k <;> simp [h]

/-- Reading back the key just assigned returns the assigned value. -/
theorem dget_dset_same (d : Rec) (k : String) (v : Val) :
    dget (dset d k v) k = .ok v := by
  unfold dget dset
  by_cases h : (d.find? (fun p => p.1 == k)).isSome
  · rw [if_pos h, List.find?_map, overwrite_pred_same]
    rcases Option.isSome_iff_exists.mp h with ⟨q, hq⟩
    rw [hq]
    have : q.1 = k := by simpa using (List.find?_some hq)
    simp [Option.map, this]
  · rw [if_neg h, List.find?_append]
    rw [Option.not_isSome_iff_eq_none.mp h]
    simp

/-- Assignment leaves every other key unchanged. -/
theorem dget_dset_ne (d : Rec) (k k' : String) (v : Val) (hne : k' ≠ k) :
    dget (dset d k v) k' = dget d k' := by
  unfold dget dset
  by_cases h : (d.find? (fun p => p.1 == k)).isSome
  · rw [if_pos h, List.find?_map, overwrite_pred_other]
    cases hf : d.find? (fun p => p.1 == k') with
    | none => simp
    | some q =>
      have hq : q.1 = k' := by simpa using (List.find?_some hf)
      have hqk : ¬ q.1 = k := by rw [hq]; exact hne
      simp [Option.map, hqk]
  · rw [if_neg h, List.find?_append]
    cases hf : d.find? (fun p => p.1 == k') with
    | none => simp [Ne.symm hne]
    | some q => simp

/-! ## Labeling: `time_label_issue` -/

/-- A failing dict lookup always carries the missing key. -/
theorem dget_error (d : Rec) (k : String) (e : PyError)
    (h : dget d k = .error e) : e = .keyError k := by
  unfold dget at h
  cases hfd : d.find? (fun p => p.1 == k) with
  | some p => rw [hfd] at h; exact absurd h (by simp)
  | none =>
    rw [hfd] at h
    exact ((Except.error.injEq _ _).mp h).symm

/-- With all three keys present, the comprehension collects exactly the
non-null values, in field order. -/
theorem collect_tstamps_fields (issue : Rec) (c r ls : Val)
    (hc : dget issue "created_at" = .ok c)
    (hr : dget issue "resolved_at" = .ok r)
    (hl : dget issue "last_seen_at" = .ok ls) :
    collect_tstamps issue target_fields = .ok (([c, r, ls] : List Val).filterMap id) := by
  simp only [target_fields, collect_tstamps, hc, hr, hl]
  cases c <;> cases r <;> cases ls <;> rfl

/-- **C2.** For every record whose three timestamp fields `created_at`,
`resolved_at`, `last_seen_at` are all present and null, `time_label_issue`
fails (the spec's `MalformedRecordError`; concretely `sorted([])[-1]`
raises `IndexError`). -/
theorem label_all_null_fails (issue : Rec)
    (hc : dget issue "created_at" = .ok none)
    (hr : dget issue "resolved_at" = .ok none)
    (hl : dget issue "last_seen_at" = .ok none) :
    time_label_issue issue = .error .indexError := by
  unfold time_label_issue
  rw [collect_tstamps_fields issue none none none hc hr hl]
  rfl

/-- Witness for C2: a concrete all-null record. -/
theorem label_all_null_fails_witness :
    time_label_issue
      [("id", some "A"), ("created_at", none), ("resolved_at", none),
       ("last_seen_at", none)] = .error .indexError :=
  label_all_null_fails
    [("id", some "A"), ("created_at", none), ("resolved_at", none), ("last_seen_at", none)]
    (by decide) (by decide) (by decide)

/-- **C3.** For every record with at least one non-null field among
`created_at`, `resolved_at`, `last_seen_at`, `time_label_issue` returns the
record extended with a `tstamp` field (all other keys unchanged — the
source works on a copy, so the input is untouched) whose value is the
lexicographic maximum of the non-null values among those three fields:
it is one of them and bounds each of them, which characterises the maximum
independently of the order in which the fields are collected. -/
theorem label_tstamp_is_max (issue : Rec) (c r ls : Val)
    (hc : dget issue "created_at" = .ok c)
    (hr : dget issue "resolved_at" = .ok r)
    (hl : dget issue "last_seen_at" = .ok ls)
    (hnn : c ≠ none ∨ r ≠ none ∨ ls ≠ none) :
    ∃ t : String,
      time_label_issue issue = .ok (dset issue "tstamp" (some t)) ∧
      (some t : Val) ∈ ([c, r, ls] : List Val) ∧
      (∀ v : String, (some v : Val) ∈ ([c, r, ls] : List Val) → v.toList ≤ t.toList) ∧
      dget (dset issue "tstamp" (some t)) "tstamp" = .ok (some t) ∧
      (∀ k, k ≠ "tstamp" → dget (dset issue "tstamp" (some t)) k = dget issue k) := by
  have hcol := collect_tstamps_fields issue c r ls hc hr hl
  set vals := ([c, r, ls] : List Val).filterMap id with hv
  have hvne : vals ≠ [] := by
    cases c <;> cases r <;> cases ls <;> simp_all [hv]
  have hperm : List.Perm (pysorted vals) vals := List.perm_insertionSort _ _
  have hsorted : (pysorted vals).Sorted StrLeP := List.sorted_insertionSort _ _
  have hsne : pysorted vals ≠ [] := by
    intro h0
    rw [h0] at hperm
    exact hvne (hperm.symm.eq_nil)
  refine ⟨(pysorted vals).getLast hsne, ?_, ?_, ?_,
    dget_dset_same _ _ _, fun k hk => dget_dset_ne _ _ _ _ hk⟩
  · unfold time_label_issue
    rw [hcol]
    show (match (pysorted vals).getLast? with
          | none => (Except.error PyError.indexError : Except PyError Rec)
          | some newest => Except.ok (dset issue "tstamp" (some newest))) =
        Except.ok (dset issue "tstamp" (some ((pysorted vals).getLast hsne)))
    rw [List.getLast?_eq_getLast _ hsne]
  · have ht_mem : (pysorted vals).getLast hsne ∈ vals :=
      hperm.subset (List.getLast_mem hsne)
    rcases List.mem_filterMap.mp ht_mem with ⟨a, ha, hat⟩
    rw [show a = some ((pysorted vals).getLast hsne) from hat] at ha
    exact ha
  · intro v hv'
    have hvmem : v ∈ vals := List.mem_filterMap.mpr ⟨some v, hv', rfl⟩
    have hle : StrLeP v ((pysorted vals).getLast hsne) :=
      sorted_getLast_isMax _ hsne hsorted v (hperm.symm.subset hvmem)
    exact (strLe_iff _ _).mp hle

/-- Witness for C3: a record with two non-null timestamps; the later one
(`last_seen_at`) wins. -/
theorem label_tstamp_is_max_witness :
    ∃ t : String,
      time_label_issue
        [("id", some "A"), ("created_at", some "2020-01-01"),
         ("resolved_at", none), ("last_seen_at", some "2020-03-01")] =
        .ok (dset
          [("id", some "A"), ("created_at", some "2020-01-01"),
           ("resolved_at", none), ("last_seen_at", some "2020-03-01")]
          "tstamp" (some t)) ∧
      (some t : Val) ∈ ([some "2020-01-01", none, some "2020-03-01"] : List Val) ∧
      (∀ v : String,
        (some v : Val) ∈ ([some "2020-01-01", none, some "2020-03-01"] : List Val) →
          v.toList ≤ t.toList) ∧
      dget (dset
        [("id", some "A"), ("created_at", some "2020-01-01"),
         ("resolved_at", none), ("last_seen_at", some "2020-03-01")]
        "tstamp" (some t)) "tstamp" = .ok (some t) ∧
      (∀ k, k ≠ "tstamp" →
        dget (dset
          [("id", some "A"), ("created_at", some "2020-01-01"),
           ("resolved_at", none), ("last_seen_at", some "2020-03-01")]
          "tstamp" (some t)) k =
        dget
          [("id", some "A"), ("created_at", some "2020-01-01"),
           ("resolved_at", none), ("last_seen_at", some "2020-03-01")] k) :=
  label_tstamp_is_max _ (some "2020-01-01") none (some "2020-03-01")
    (by decide) (by decide) (by decide) (by decide)

/-- **C10.** `time_label_issue` requires all three timestamp keys to be
present: when any one of them is absent from the dict, labeling fails with
that key's `KeyError`, regardless of the other fields' values. -/
theorem label_missing_key_fails (issue : Rec)
    (h : dget issue "created_at" = .error (.keyError "created_at") ∨
         dget issue "resolved_at" = .error (.keyError "resolved_at") ∨
         dget issue "last_seen_at" = .error (.keyError "last_seen_at")) :
    ∃ k, k ∈ target_fields ∧ dget issue k = .error (.keyError k) ∧
      time_label_issue issue = .error (.keyError k) := by
  cases hc : dget issue "created_at" with
  | error e =>
    have he := dget_error _ _ _ hc
    subst he
    refine ⟨"created_at", by simp [target_fields], hc, ?_⟩
    unfold time_label_issue
    simp only [target_fields, collect_tstamps, hc]
    rfl
  | ok c =>
    cases hr : dget issue "resolved_at" with
    | error e =>
      have he := dget_error _ _ _ hr
      subst he
      refine ⟨"resolved_at", by simp [target_fields], hr, ?_⟩
      unfold time_label_issue
      simp only [target_fields, collect_tstamps, hc, hr]
      cases c <;> rfl
    | ok r =>
      cases hl : dget issue "last_seen_at" with
      | error e =>
        have he := dget_error _ _ _ hl
        subst he
        refine ⟨"last_seen_at", by simp [target_fields], hl, ?_⟩
        unfold time_label_issue
        simp only [target_fields, collect_tstamps, hc, hr, hl]
        cases c <;> cases r <;> rfl
      | ok ls =>
        rcases h with h | h | h
        · rw [hc] at h; exact absurd h (by simp)
        · rw [hr] at h; exact absurd h (by simp)
        · rw [hl] at h; exact absurd h (by simp)

/-- Witness for C10: `resolved_at` is absent while the other two fields are
present and non-null; labeling still fails with a `KeyError`. -/
theorem label_missing_key_fails_witness :
    ∃ k, k ∈ target_fields ∧
      dget [("id", some "A"), ("created_at", some "2020-01-01"),
            ("last_seen_at", some "2020-03-01")] k = .error (.keyError k) ∧
      time_label_issue
        [("id", some "A"), ("created_at", some "2020-01-01"),
         ("last_seen_at", some "2020-03-01")] = .error (.keyError k) :=
  label_missing_key_fails
    [("id", some "A"), ("created_at", some "2020-01-01"), ("last_seen_at", some "2020-03-01")]
    (Or.inr (Or.inl (by decide)))

/-! ## The client-side time window (C4) -/

theorem ok_bind {α β : Type} (a : α) (f : α → Except PyError β) :
    (Except.ok a >>= f) = f a := rfl

theorem error_bind {α β : Type} (e : PyError) (f : α → Except PyError β) :
    ((Except.error e : Except PyError α) >>= f) = Except.error e := rfl

/-- A filtering comprehension whose condition provably never raises is the
pure filter. -/
theorem filterExcept_eq_filter (p : α → Except PyError Bool) (q : α → Bool) :
    ∀ l : List α, (∀ x ∈ l, p x = .ok (q x)) →
      filterExcept p l = .ok (l.filter q)
  | [], _ => rfl
  | x :: xs, h => by
    have hx := h x (List.mem_cons_self x xs)
    have hxs :=
      filterExcept_eq_filter p q xs (fun y hy => h y (List.mem_cons_of_mem _ hy))
    simp only [filterExcept, hx, hxs, ok_bind, List.filter_cons]

/-- The pure window predicate once every record's `tstamp` is a string. -/
def keepPred (cutoff : String) (x : Rec) : Bool :=
  match dget x "tstamp" with
  | .ok (some t) => targeted_date t cutoff
  | _ => false

theorem tstampStr_ok (x : Rec) (t : String) (ht : dget x "tstamp" = .ok (some t)) :
    tstampStr x = .ok t := by
  unfold tstampStr
  rw [ht, ok_bind]

theorem keepPred_eq (cutoff : String) (x : Rec) (t : String)
    (ht : dget x "tstamp" = .ok (some t)) :
    keepPred cutoff x = targeted_date t cutoff := by
  unfold keepPred
  rw [ht]

/-- **C4.** For every list of labeled records (each carrying a string
`tstamp`) and every cutoff, the two comprehensions of
`get_issues_touched_since` partition the list: every kept record's `tstamp`
is lexicographically strictly greater than the cutoff, every discarded
record's `tstamp` is less than or equal to the cutoff (so equal-to-cutoff
records are discarded), and kept concatenated with discarded is a
permutation of the input. -/
theorem window_filter_partition (labeled : List Rec) (cutoff : String)
    (h : ∀ x ∈ labeled, ∃ t : String, dget x "tstamp" = .ok (some t)) :
    ∃ kept discarded : List Rec,
      window_kept labeled cutoff = .ok kept ∧
      window_discarded labeled cutoff = .ok discarded ∧
      (∀ x ∈ kept, ∀ t : String, dget x "tstamp" = .ok (some t) →
        cutoff.toList < t.toList) ∧
      (∀ x ∈ discarded, ∀ t : String, dget x "tstamp" = .ok (some t) →
        t.toList ≤ cutoff.toList) ∧
      List.Perm (kept ++ discarded) labeled := by
  have hcond : ∀ x ∈ labeled,
      (do
        let t ← tstampStr x
        (.ok (targeted_date t cutoff) : Except PyError Bool)) =
        .ok (keepPred cutoff x) := by
    intro x hx
    rcases h x hx with ⟨t, ht⟩
    rw [tstampStr_ok x t ht, ok_bind, keepPred_eq cutoff x t ht]
  have hcond' : ∀ x ∈ labeled,
      (do
        let t ← tstampStr x
        (.ok (!targeted_date t cutoff) : Except PyError Bool)) =
        .ok (!keepPred cutoff x) := by
    intro x hx
    rcases h x hx with ⟨t, ht⟩
    rw [tstampStr_ok x t ht, ok_bind, keepPred_eq cutoff x t ht]
  refine ⟨labeled.filter (keepPred cutoff),
    labeled.filter (fun x => !keepPred cutoff x),
    filterExcept_eq_filter _ _ labeled hcond,
    filterExcept_eq_filter _ _ labeled hcond',
    ?_, ?_, List.filter_append_perm _ labeled⟩
  · intro x hx t ht
    have hq : keepPred cutoff x = true := (List.mem_filter.mp hx).2
    rw [keepPred_eq cutoff x t ht] at hq
    unfold targeted_date at hq
    by_cases hlt : pyLt cutoff.toList t.toList = true
    · exact (pyLt_iff_lt _ _).mp hlt
    · rw [if_neg hlt] at hq
      exact absurd hq (by simp)
  · intro x hx t ht
    have hq : (!keepPred cutoff x) = true := (List.mem_filter.mp hx).2
    rw [keepPred_eq cutoff x t ht] at hq
    unfold targeted_date at hq
    by_cases hlt : pyLt cutoff.toList t.toList = true
    · rw [if_pos hlt] at hq
      exact absurd hq (by simp)
    · have hfalse : pyLt cutoff.toList t.toList = false := by
        revert hlt
        cases pyLt cutoff.toList t.toList <;> simp
      exact (pyLt_eq_false_iff_le _ _).mp hfalse

/-- Witness for C4: two records, one after and one before the cutoff. -/
theorem window_filter_partition_witness :
    ∃ kept discarded : List Rec,
      window_kept
        [[("id", some "A"), ("tstamp", some "2020-02-01")],
         [("id", some "B"), ("tstamp", some "2019-12-01")]] "2020-01-01" = .ok kept ∧
      window_discarded
        [[("id", some "A"), ("tstamp", some "2020-02-01")],
         [("id", some "B"), ("tstamp", some "2019-12-01")]] "2020-01-01" = .ok discarded ∧
      (∀ x ∈ kept, ∀ t : String, dget x "tstamp" = .ok (some t) →
        "2020-01-01".toList < t.toList) ∧
      (∀ x ∈ discarded, ∀ t : String, dget x "tstamp" = .ok (some t) →
        t.toList ≤ "2020-01-01".toList) ∧
      List.Perm (kept ++ discarded)
        [[("id", some "A"), ("tstamp", some "2020-02-01")],
         [("id", some "B"), ("tstamp", some "2019-12-01")]] :=
  window_filter_partition
    [[("id", some "A"), ("tstamp", some "2020-02-01")],
     [("id", some "B"), ("tstamp", some "2019-12-01")]] "2020-01-01"
    (by
      intro x hx
      rcases List.mem_cons.mp hx with rfl | hx
      · exact ⟨"2020-02-01", by decide⟩
      rcases List.mem_cons.mp hx with rfl | hx
      · exact ⟨"2019-12-01", by decide⟩
      · cases hx)

/-! ## Deduplication (C6) -/

theorem keepFirstOccurrences_nil (idv : Rec → Val) :
    keepFirstOccurrences idv [] = [] := by
  rw [keepFirstOccurrences]

theorem keepFirstOccurrences_cons (idv : Rec → Val) (x : Rec) (xs : List Rec) :
    keepFirstOccurrences idv (x :: xs) =
      x :: keepFirstOccurrences idv (xs.filter (fun y => idv y != idv x)) := by
  rw [keepFirstOccurrences]

/-- Once every record's `id` lookup succeeds, the dedupe loop is its pure
mirror. -/
theorem dedupe_aux_eq_keepFirstSeen (idv : Rec → Val) :
    ∀ (l : List Rec) (seen : List Val),
      (∀ x ∈ l, dget x "id" = .ok (idv x)) →
      dedupe_aux seen l = .ok (keepFirstSeen idv seen l)
  | [], _, _ => rfl
  | x :: xs, seen, h => by
    have hx := h x (List.mem_cons_self x xs)
    have hxs := fun seen' =>
      dedupe_aux_eq_keepFirstSeen idv xs seen'
        (fun y hy => h y (List.mem_cons_of_mem _ hy))
    simp only [dedupe_aux, keepFirstSeen, hx, ok_bind]
    by_cases hmem : idv x ∈ seen
    · rw [if_pos hmem, if_pos hmem, hxs seen]
    · rw [if_neg hmem, if_neg hmem, hxs (idv x :: seen), ok_bind]

theorem keepFirstSeen_sublist (idv : Rec → Val) :
    ∀ (l : List Rec) (seen : List Val), (keepFirstSeen idv seen l).Sublist l
  | [], _ => List.nil_sublist _
  | x :: xs, seen => by
    simp only [keepFirstSeen]
    by_cases hmem : idv x ∈ seen
    · rw [if_pos hmem]
      exact List.Sublist.cons _ (keepFirstSeen_sublist idv xs seen)
    · rw [if_neg hmem]
      exact List.Sublist.cons₂ _ (keepFirstSeen_sublist idv xs (idv x :: seen))

/-- The dedupe loop's output has pairwise-distinct ids, none of them in the
incoming `seen` set. -/
theorem keepFirstSeen_spec (idv : Rec → Val) :
    ∀ (l : List Rec) (seen : List Val),
      (keepFirstSeen idv seen l).Pairwise (fun a b => idv a ≠ idv b) ∧
      ∀ x ∈ keepFirstSeen idv seen l, idv x ∉ seen
  | [], _ => ⟨List.Pairwise.nil, by simp [keepFirstSeen]⟩
  | x :: xs, seen => by
    by_cases hmem : idv x ∈ seen
    · simp only [keepFirstSeen, if_pos hmem]
      exact keepFirstSeen_spec idv xs seen
    · simp only [keepFirstSeen, if_neg hmem]
      obtain ⟨hpw, hnotin⟩ := keepFirstSeen_spec idv xs (idv x :: seen)
      constructor
      · refine List.Pairwise.cons ?_ hpw
        intro y hy
        have hy' := hnotin y hy
        simp only [List.mem_cons, not_or] at hy'
        exact fun hxy => hy'.1 hxy.symm
      · intro y hy
        rcases List.mem_cons.mp hy with rfl | hy'
        · exact hmem
        · have hy'' := hnotin y hy'
          simp only [List.mem_cons, not_or] at hy''
          exact hy''.2

/-- The dedupe loop leaves a list with pairwise-distinct unseen ids
unchanged. -/
theorem dedupe_aux_of_distinct (idv : Rec → Val) :
    ∀ (l : List Rec) (seen : List Val),
      (∀ x ∈ l, dget x "id" = .ok (idv x)) →
      (∀ x ∈ l, idv x ∉ seen) →
      l.Pairwise (fun a b => idv a ≠ idv b) →
      dedupe_aux seen l = .ok l
  | [], _, _, _, _ => rfl
  | x :: xs, seen, h, hn, hpw => by
    have hx := h x (List.mem_cons_self x xs)
    simp only [dedupe_aux, hx, ok_bind]
    rw [if_neg (hn x (List.mem_cons_self x xs))]
    rw [dedupe_aux_of_distinct idv xs (idv x :: seen)
      (fun y hy => h y (List.mem_cons_of_mem _ hy))
      (fun y hy => by
        simp only [List.mem_cons, not_or]
        exact ⟨fun he => ((List.pairwise_cons.mp hpw).1 y hy) he.symm,
          hn y (List.mem_cons_of_mem _ hy)⟩)
      (List.pairwise_cons.mp hpw).2]
    rfl

/-- The seen-set loop with seen ids excluded up front is the spec-side
first-occurrence function. -/
theorem keepFirstSeen_eq_keepFirstOccurrences (idv : Rec → Val) :
    ∀ (l : List Rec) (seen : List Val),
      keepFirstSeen idv seen l =
        keepFirstOccurrences idv (l.filter (fun y => decide (idv y ∉ seen)))
  | [], seen => by
    simp only [keepFirstSeen, List.filter_nil, keepFirstOccurrences_nil]
  | x :: xs, seen => by
    by_cases hmem : idv x ∈ seen
    · have hpx : decide (idv x ∉ seen) = false := by simp [hmem]
      simp only [keepFirstSeen, if_pos hmem, List.filter_cons, hpx,
        Bool.false_eq_true, if_false]
      exact keepFirstSeen_eq_keepFirstOccurrences idv xs seen
    · have hpx : decide (idv x ∉ seen) = true := by simp [hmem]
      simp only [keepFirstSeen, if_neg hmem, List.filter_cons, hpx, if_true]
      rw [keepFirstOccurrences_cons]
      congr 1
      rw [keepFirstSeen_eq_keepFirstOccurrences idv xs (idv x :: seen)]
      congr 1
      rw [List.filter_filter]
      apply List.filter_congr
      intro y _
      by_cases h1 : idv y = idv x <;> by_cases h2 : idv y ∈ seen <;>
        simp [h1, h2]

/-- **C6.** For every list of records each carrying an `id` field (with id
view `idv`), `deduplicate_issues` returns exactly the stable subsequence
keeping the first occurrence of each distinct id (`keepFirstOccurrences`,
written from the spec's words); consequently it is idempotent, its output
is a sublist of (hence never longer than) its input, and the empty input
yields the empty output. -/
theorem dedupe_first_occurrence (idv : Rec → Val) (l : List Rec)
    (h : ∀ x ∈ l, dget x "id" = .ok (idv x)) :
    deduplicate_issues l = .ok (keepFirstOccurrences idv l) ∧
    deduplicate_issues (keepFirstOccurrences idv l) =
      .ok (keepFirstOccurrences idv l) ∧
    (keepFirstOccurrences idv l).Sublist l ∧
    (keepFirstOccurrences idv l).length ≤ l.length ∧
    deduplicate_issues ([] : List Rec) = .ok [] := by
  have hkey : keepFirstSeen idv [] l = keepFirstOccurrences idv l := by
    rw [keepFirstSeen_eq_keepFirstOccurrences idv l []]
    congr 1
    apply List.filter_eq_self.mpr
    intro y _
    simp
  have hsub : (keepFirstOccurrences idv l).Sublist l :=
    hkey ▸ keepFirstSeen_sublist idv l []
  refine ⟨?_, ?_, hsub, hsub.length_le, rfl⟩
  · unfold deduplicate_issues
    rw [dedupe_aux_eq_keepFirstSeen idv l [] h, hkey]
  · obtain ⟨hpw, _⟩ := keepFirstSeen_spec idv l []
    rw [hkey] at hpw
    unfold deduplicate_issues
    rw [dedupe_aux_of_distinct idv (keepFirstOccurrences idv l) []
      (fun y hy => h y (hsub.subset hy)) (by simp) hpw]

/-- Witness for C6: three records with a duplicated id. -/
theorem dedupe_first_occurrence_witness :
    deduplicate_issues
      [[("id", some "A")], [("id", some "B")], [("id", some "A")]] =
      .ok (keepFirstOccurrences idOf
        [[("id", some "A")], [("id", some "B")], [("id", some "A")]]) ∧
    deduplicate_issues (keepFirstOccurrences idOf
      [[("id", some "A")], [("id", some "B")], [("id", some "A")]]) =
      .ok (keepFirstOccurrences idOf
        [[("id", some "A")], [("id", some "B")], [("id", some "A")]]) ∧
    (keepFirstOccurrences idOf
      [[("id", some "A")], [("id", some "B")], [("id", some "A")]]).Sublist
      [[("id", some "A")], [("id", some "B")], [("id", some "A")]] ∧
    (keepFirstOccurrences idOf
      [[("id", some "A")], [("id", some "B")], [("id", some "A")]]).length ≤
      ([[("id", some "A")], [("id", some "B")], [("id", some "A")]] : List Rec).length ∧
    deduplicate_issues ([] : List Rec) = .ok [] :=
  dedupe_first_occurrence idOf
    [[("id", some "A")], [("id", some "B")], [("id", some "A")]] (by decide)

/-! ## The worked example (C7) -/

/-- **C7.** On the two concrete records sharing id `A`, labeling yields
tstamps `"2020-03-01"` and `"2020-04-01"` respectively, and deduplicating
the labeled list leaves exactly the first record in input order, with
tstamp `"2020-03-01"`. -/
theorem example_label_then_dedupe :
    mapExcept time_label_issue
      [[("id", some "A"), ("created_at", some "2020-01-01"),
        ("resolved_at", none), ("last_seen_at", some "2020-03-01")],
       [("id", some "A"), ("created_at", some "2020-01-01"),
        ("resolved_at", some "2020-04-01"), ("last_seen_at", none)]] =
      .ok
        [[("id", some "A"), ("created_at", some "2020-01-01"),
          ("resolved_at", none), ("last_seen_at", some "2020-03-01"),
          ("tstamp", some "2020-03-01")],
         [("id", some "A"), ("created_at", some "2020-01-01"),
          ("resolved_at", some "2020-04-01"), ("last_seen_at", none),
          ("tstamp", some "2020-04-01")]] ∧
    deduplicate_issues
      [[("id", some "A"), ("created_at", some "2020-01-01"),
        ("resolved_at", none), ("last_seen_at", some "2020-03-01"),
        ("tstamp", some "2020-03-01")],
       [("id", some "A"), ("created_at", some "2020-01-01"),
        ("resolved_at", some "2020-04-01"), ("last_seen_at", none),
        ("tstamp", some "2020-04-01")]] =
      .ok
        [[("id", some "A"), ("created_at", some "2020-01-01"),
          ("resolved_at", none), ("last_seen_at", some "2020-03-01"),
          ("tstamp", some "2020-03-01")]] := by
  exact ⟨by decide, by decide⟩

/-! ## Distinct identities out of `describe_all_issues` (C5) -/

/-- A successful raising map relates input and output pointwise. -/
theorem mapExcept_forall₂ (f : α → Except PyError β) :
    ∀ (l : List α) (out : List β), mapExcept f l = .ok out →
      List.Forall₂ (fun a b => f a = .ok b) l out
  | [], out, h => by
    have : out = [] := by
      simpa [mapExcept] using h.symm
    subst this
    exact List.Forall₂.nil
  | x :: xs, out, h => by
    cases hfx : f x with
    | error e =>
      rw [mapExcept, hfx, error_bind] at h
      exact absurd h (by simp)
    | ok y =>
      cases hrest : mapExcept f xs with
      | error e =>
        rw [mapExcept, hfx, ok_bind, hrest, error_bind] at h
        exact absurd h (by simp)
      | ok ys =>
        rw [mapExcept, hfx, ok_bind, hrest, ok_bind] at h
        have : y :: ys = out := (Except.ok.injEq _ _).mp h
        subst this
        exact List.Forall₂.cons hfx (mapExcept_forall₂ f xs ys hrest)

/-- Every element of the right list of a `Forall₂` has a related partner on
the left. -/
theorem forall₂_mem_right {R : α → β → Prop} :
    ∀ {l : List α} {l' : List β}, List.Forall₂ R l l' →
      ∀ b ∈ l', ∃ a ∈ l, R a b := by
  intro l l' h
  induction h with
  | nil => intro b hb; cases hb
  | cons hR _ ih =>
    intro b hb
    rcases List.mem_cons.mp hb with rfl | hb'
    · exact ⟨_, List.mem_cons_self _ _, hR⟩
    · rcases ih b hb' with ⟨a, ha, hab⟩
      exact ⟨a, List.mem_cons_of_mem _ ha, hab⟩

/-- Transfer a pairwise property along a `Forall₂` relation. -/
theorem forall₂_pairwise {R : α → β → Prop} {P : α → α → Prop} {Q : β → β → Prop}
    (hPQ : ∀ a a' b b', R a b → R a' b' → P a a' → Q b b') :
    ∀ {l : List α} {l' : List β}, List.Forall₂ R l l' →
      l.Pairwise P → l'.Pairwise Q := by
  intro l l' h
  induction h with
  | nil => intro _; exact List.Pairwise.nil
  | @cons a b l l' hR hF ih =>
    intro hpw
    rcases List.pairwise_cons.mp hpw with ⟨hhead, htail⟩
    refine List.Pairwise.cons ?_ (ih htail)
    intro b' hb'
    rcases forall₂_mem_right hF b' hb' with ⟨a', ha', hR'⟩
    exact hPQ a a' b b' hR hR' (hhead a' ha')

/-- A successful labeling is exactly a `tstamp` assignment. -/
theorem time_label_shape (x y : Rec) (h : time_label_issue x = .ok y) :
    ∃ t : String, y = dset x "tstamp" (some t) := by
  unfold time_label_issue at h
  cases hcol : collect_tstamps x target_fields with
  | error e =>
    rw [hcol, error_bind] at h
    exact absurd h (by simp)
  | ok vs =>
    rw [hcol, ok_bind] at h
    cases hgl : (pysorted vs).getLast? with
    | none =>
      simp only [hgl] at h
      exact absurd h (by simp)
    | some t =>
      simp only [hgl] at h
      exact ⟨t, ((Except.ok.injEq _ _).mp h).symm⟩

/-- Labeling never touches the `id` field. -/
theorem time_label_preserves_id (x y : Rec) (h : time_label_issue x = .ok y) :
    dget y "id" = dget x "id" := by
  obtain ⟨t, rfl⟩ := time_label_shape x y h
  exact dget_dset_ne x "tstamp" "id" (some t) (by decide)

/-- **C5.** For every cutoff and `critical_only` flag, and assuming the
record source's `get(id)` returns a record whose `id` field equals the
requested id, a successful `describe_all_issues` never returns two records
with the same id. -/
theorem describe_all_issues_distinct_ids (list_all : Query → List Rec)
    (get_issue : Val → Rec) (timestamp : String) (critical_only : Bool)
    (out : List Rec)
    (hget : ∀ v : Val, dget (get_issue v) "id" = .ok v)
    (h : describe_all_issues list_all get_issue timestamp critical_only = .ok out) :
    out.Pairwise (fun a b => dget a "id" ≠ dget b "id") := by
  unfold describe_all_issues at h
  cases htouch : get_issues_touched_since list_all timestamp critical_only with
  | error e =>
    rw [htouch, error_bind] at h
    exact absurd h (by simp)
  | ok touched =>
    rw [htouch, ok_bind] at h
    cases hids : mapExcept (fun x => dget x "id") touched with
    | error e =>
      rw [hids, error_bind] at h
      exact absurd h (by simp)
    | ok ids =>
      rw [hids, ok_bind] at h
      have hf₂ := mapExcept_forall₂ _ _ _ h
      rw [List.forall₂_map_left_iff] at hf₂
      have hnodup : ids.dedup.Pairwise (fun v v' : Val => v ≠ v') :=
        List.nodup_dedup ids
      have hPQ : ∀ (v v' : Val) (b b' : Rec),
          time_label_issue (get_issue v) = .ok b →
          time_label_issue (get_issue v') = .ok b' →
          v ≠ v' → dget b "id" ≠ dget b' "id" := by
        intro v v' b b' hR hR' hvv'
        have hb : dget b "id" = .ok v := by
          rw [time_label_preserves_id _ _ hR]
          exact hget v
        have hb' : dget b' "id" = .ok v' := by
          rw [time_label_preserves_id _ _ hR']
          exact hget v'
        rw [hb, hb']
        intro hcontra
        exact hvv' ((Except.ok.injEq _ _).mp hcontra)
      exact forall₂_pairwise hPQ hf₂ hnodup

/-- Witness for C5: the mock source; the three returned records have ids
`A`, `C`, `D`. -/
theorem describe_all_issues_distinct_ids_witness :
    ∃ out : List Rec,
      describe_all_issues mock_list_all mock_get "2020-01-01" true = .ok out ∧
      out.Pairwise (fun a b => dget a "id" ≠ dget b "id") := by
  refine ⟨[[("id", some "A"), ("created_at", some "2019-01-01"),
    ("resolved_at", some "2020-02-01"), ("last_seen_at", some "2020-02-15"),
    ("status", some "resolved"), ("tstamp", some "2020-02-15")],
   [("id", some "C"), ("created_at", some "2020-01-05"), ("resolved_at", none),
    ("last_seen_at", some "2020-03-01"), ("tstamp", some "2020-03-01")],
   [("id", some "D"), ("created_at", some "2020-01-06"), ("resolved_at", none),
    ("last_seen_at", some "2020-04-01"), ("tstamp", some "2020-04-01")]],
    by decide, ?_⟩
  refine describe_all_issues_distinct_ids mock_list_all mock_get
    "2020-01-01" true _ ?_ (by decide)
  intro v
  unfold mock_get
  by_cases h1 : v = some "A"
  · rw [if_pos h1, h1]; rfl
  · rw [if_neg h1]
    by_cases h2 : v = some "C"
    · rw [if_pos h2, h2]; rfl
    · rw [if_neg h2]
      by_cases h3 : v = some "D"
      · rw [if_pos h3, h3]; rfl
      · rw [if_neg h3]; rfl

/-! ## End-to-end on the mock source (C9) -/

/-- **C9.** With a source returning 3 "updated" and 2 "resolved" records,
one id (`A`) common to both sets and one record (`B`) whose derived
`tstamp` is not strictly newer than the cutoff, `describe_all_issues`
returns exactly 3 records (5 − 1 duplicate − 1 stale), each carrying a
string `tstamp` field. -/
theorem describe_all_issues_end_to_end :
    mock_updated.length = 3 ∧ mock_resolved.length = 2 ∧
    ∃ out : List Rec,
      describe_all_issues mock_list_all mock_get "2020-01-01" true = .ok out ∧
      out.length = 3 ∧
      ∀ x ∈ out, ∃ t : String, dget x "tstamp" = .ok (some t) := by
  refine ⟨by decide, by decide,
    [[("id", some "A"), ("created_at", some "2019-01-01"),
      ("resolved_at", some "2020-02-01"), ("last_seen_at", some "2020-02-15"),
      ("status", some "resolved"), ("tstamp", some "2020-02-15")],
     [("id", some "C"), ("created_at", some "2020-01-05"), ("resolved_at", none),
      ("last_seen_at", some "2020-03-01"), ("tstamp", some "2020-03-01")],
     [("id", some "D"), ("created_at", some "2020-01-06"), ("resolved_at", none),
      ("last_seen_at", some "2020-04-01"), ("tstamp", some "2020-04-01")]],
    by decide, by decide, ?_⟩
  intro x hx
  rcases List.mem_cons.mp hx with rfl | hx
  · exact ⟨"2020-02-15", by decide⟩
  rcases List.mem_cons.mp hx with rfl | hx
  · exact ⟨"2020-03-01", by decide⟩
  rcases List.mem_cons.mp hx with rfl | hx
  · exact ⟨"2020-04-01", by decide⟩
  · cases hx

/-! ## The finding resolver (C1, C8) -/

/-- **C1 (counter-evidence / code bug).** A URL containing `/scans/` that
fails the strict scan-URL regex does *not* produce a logged error and a
null return: `parse_finding_url` logs and returns `None` as its own
docstring says, but `describe_finding` unpacks that return value into
`scan_id, finding_id` without a `None` check, raising
`TypeError: cannot unpack non-iterable NoneType object`. (A URL matching
neither pattern does return `None` as the spec says.) -/
theorem describe_finding_scan_parse_failure_raises :
    strContains "http://x.cloudpassage.com/v1/scans/AAA/findings/BBB" "/scans/" = true ∧
    parse_finding_url "http://x.cloudpassage.com/v1/scans/AAA/findings/BBB" = none ∧
    describe_finding "http://x.cloudpassage.com/v1/scans/AAA/findings/BBB" =
      .error .typeError ∧
    describe_finding "not-a-url" = .ok .pyNone := by
  exact ⟨by decide, by decide, by decide, by decide⟩

/-- **C8.** The scan-URL example parses to `scan_id="AAA111"`,
`finding_id="BBB222"` and fetches `/v1/scans/AAA111/findings/BBB222`; the
events-URL example fetches `/v1/events/ZZZ999`. -/
theorem describe_finding_examples :
    parse_finding_url "https://x.cloudpassage.com/v1/scans/AAA111/findings/BBB222" =
      some ("AAA111", "BBB222") ∧
    describe_finding "https://x.cloudpassage.com/v1/scans/AAA111/findings/BBB222" =
      .ok (.fetched "/v1/scans/AAA111/findings/BBB222") ∧
    describe_finding "https://x.cloudpassage.com/v1/events/ZZZ999" =
      .ok (.fetched "/v1/events/ZZZ999") := by
  exact ⟨by decide, by decide, by decide⟩
